import Mathlib

/-!
Verification of the core matching algorithm of the ideal-functions
repository: ideal-function selection by least-squared-deviation
(IdealFunctionsManager.get_ideal_functions), test-point classification
against the per-column deviation bound
(IdealFunctionsManager.map_test_data_to_ideal_functions), and result
persistence (DataManager.save_data).  Numeric values are embedded as
rationals, pandas data frames as a shared x column plus named columns,
Python dicts as ordered association lists, and raised exceptions as
Option / Except values.
-/

namespace IdealFunctions

/-- Association list lookup by key, modelling Python dict access and pandas
column access by name.  Dicts in the source keep insertion order and have
unique keys; lookup returns the first binding. -/
def dictGet {α : Type} : List (String × α) → String → Option α
  | [], _ => none
  | p :: rest, k => if p.1 = k then some p.2 else dictGet rest k

/-- Association list update, modelling Python dict item assignment: an
existing key keeps its position and receives the new value, a new key is
appended at the end. -/
def dictSet {α : Type} : List (String × α) → String → α → List (String × α)
  | [], k, v => [(k, v)]
  | p :: rest, k, v => if p.1 = k then (k, v) :: rest else p :: dictSet rest k v

/-- A data table as produced by DataManager.load_data: the shared x column
plus the named y columns, in column order (data.columns[1:] in the source). -/
structure Table where
  x : List ℚ
  cols : List (String × List ℚ)
  deriving DecidableEq

/-- Slope and intercept of a fitted one dimensional linear model. -/
structure LinFit where
  slope : ℚ
  intercept : ℚ
  deriving DecidableEq

/-- Arithmetic mean of a list of rationals (zero for the empty list). -/
def mean (l : List ℚ) : ℚ := l.sum / l.length

/-- Modelled from the spec: the source delegates regression to
sklearn.linear_model.LinearRegression, whose code is not part of this
repository.  Following spec section 4.1, fitting is closed form ordinary
least squares over the pairs (fx, fy); in the degenerate case where fx has
zero variance the slope is 0 and the intercept is the mean of fy. -/
def fitLine (fx fy : List ℚ) : LinFit :=
  let xbar := mean fx
  let ybar := mean fy
  let sxx := (fx.map (fun a => (a - xbar) ^ 2)).sum
  let sxy := ((fx.zip fy).map (fun p => (p.1 - xbar) * (p.2 - ybar))).sum
  if sxx = 0 then { slope := 0, intercept := ybar }
  else { slope := sxy / sxx, intercept := ybar - sxy / sxx * xbar }

/-- Evaluation of a fitted linear model at one query point
(LinearRegression.predict on a single x). -/
def predictAt (m : LinFit) (q : ℚ) : ℚ := m.slope * q + m.intercept

/-- LinearRegression.fit as called by the source: it raises (none) when the
x and y sequences have different lengths or are empty, and returns the
fitted line otherwise. -/
def fitModel (fx fy : List ℚ) : Option LinFit :=
  if fx.length = fy.length ∧ fx ≠ [] then some (fitLine fx fy) else none

/-- IdealFunctionsManager._calculate_squared_deviation: fit a line to
(x, ideal_func_y), predict at the same x, and sum the squared deviations
from train_y.  none models the exception path (the source wraps and
re-raises any failure). -/
def calculate_squared_deviation (train_y ideal_func_y x : List ℚ) : Option ℚ :=
  match fitModel x ideal_func_y with
  | none => none
  | some m =>
      let y_predicted_ideal := x.map (predictAt m)
      if train_y.length = y_predicted_ideal.length then
        some (((train_y.zip y_predicted_ideal).map (fun p => (p.1 - p.2) ^ 2)).sum)
      else none

/-- Squared deviation of one training column against one named ideal column,
in the argument layout of the selection loop. -/
def pairDev (x train_y : List ℚ) (c : String × List ℚ) : Option ℚ :=
  calculate_squared_deviation train_y c.2 x

/-- One iteration of the inner loop of get_ideal_functions over the ideal
columns: a failed calculation is skipped (logged in the source), a strictly
smaller sum replaces the tracked best. -/
def selectStep (x train_y : List ℚ) (acc : Option (String × ℚ))
    (c : String × List ℚ) : Option (String × ℚ) :=
  match calculate_squared_deviation train_y c.2 x with
  | none => acc
  | some dev =>
      match acc with
      | none => some (c.1, dev)
      | some best => if dev < best.2 then some (c.1, dev) else some best

/-- The inner loop of get_ideal_functions: starting from
min_sum_squared_deviation = infinity and best name None, sweep the ideal
columns in order. -/
def selectBest (x train_y : List ℚ) (ideal_cols : List (String × List ℚ)) :
    Option (String × ℚ) :=
  ideal_cols.foldl (selectStep x train_y) none

/-- Python max over a sequence: none on the empty sequence (where the source
builtin raises ValueError). -/
def listMax : List ℚ → Option ℚ
  | [] => none
  | a :: rest => some (rest.foldl max a)

/-- The refit block of get_ideal_functions after the best ideal column was
chosen: look the chosen name up in the ideal table (a None name raises
KeyError), refit the line, predict on the training grid and take the maximal
absolute deviation from the training column.  none models the exception
branch, which stores NaN as the bound. -/
def refitBound (x : List ℚ) (ideal_cols : List (String × List ℚ))
    (train_y : List ℚ) (best : Option String) : Option ℚ :=
  match best with
  | none => none
  | some name =>
      match dictGet ideal_cols name with
      | none => none
      | some ys =>
          match fitModel x ys with
          | none => none
          | some m =>
              let pred := x.map (predictAt m)
              if train_y.length = pred.length then
                listMax ((train_y.zip pred).map (fun p => |p.1 - p.2|))
              else none

/-- The process wide working state of IdealFunctionsManager: the field
ideal_functions_selection maps a training column name to the chosen ideal
column name (None when no fit succeeded), the field
training_data_max_deviations maps a training column name to its deviation
bound (none modelling NaN). -/
structure ManagerState where
  ideal_functions_selection : List (String × Option String)
  training_data_max_deviations : List (String × Option ℚ)
  deriving DecidableEq

/-- The state set up by IdealFunctionsManager.__init__: both dicts empty. -/
def initState : ManagerState :=
  { ideal_functions_selection := [], training_data_max_deviations := [] }

/-- One iteration of the outer loop of get_ideal_functions over the training
columns: run the inner sweep, record the best name (possibly None) in the
fresh selection dict, and store the refit bound (NaN as none on failure) in
the persistent max deviations dict. -/
def selColStep (x : List ℚ) (ideal_cols : List (String × List ℚ))
    (st : ManagerState) (tc : String × List ℚ) : ManagerState :=
  { ideal_functions_selection := dictSet st.ideal_functions_selection tc.1
      ((selectBest x tc.2 ideal_cols).map (fun p => p.1)),
    training_data_max_deviations := dictSet st.training_data_max_deviations tc.1
      (refitBound x ideal_cols tc.2 ((selectBest x tc.2 ideal_cols).map (fun p => p.1))) }

/-- IdealFunctionsManager.get_ideal_functions, selection core (lines 128 to
168): the selection dict is rebuilt from scratch while the max deviations
dict of the prior state is updated in place. -/
def get_ideal_functions (train ideal : Table) (st : ManagerState) : ManagerState :=
  train.cols.foldl (selColStep train.x ideal.cols)
    { ideal_functions_selection := [],
      training_data_max_deviations := st.training_data_max_deviations }

/-- One test observation, an (x, y) pair not required to lie on the grid. -/
structure TestPoint where
  x : ℚ
  y : ℚ
  deriving DecidableEq

/-- One row appended to mapping_results by
map_test_data_to_ideal_functions. -/
structure MappingRecord where
  x : ℚ
  y : ℚ
  deltaY : ℚ
  idealFunc : String
  trainingCol : String
  deriving DecidableEq

/-- The acceptance test deviation_test_point <= max_train_deviation * sqrt 2
of the source, expressed over the rationals by squaring: for a nonnegative
deviation d it holds exactly when d is at most b times the square root of
two. -/
def acceptsBound (d b : ℚ) : Bool :=
  decide (0 ≤ b) && decide (d ^ 2 ≤ 2 * b ^ 2)

/-- The acceptance test including the NaN bound case: a comparison against
NaN is false in Python, so a pair whose stored bound is NaN (none) is never
accepted. -/
def pairAccepted (bOpt : Option ℚ) (d : ℚ) : Bool :=
  match bOpt with
  | none => false
  | some b => acceptsBound d b

/-- The running minimum update of the classification loop: an accepted
deviation replaces the tracked candidate only when strictly smaller. -/
def updateMin (acc : Option (ℚ × String × String))
    (cand : ℚ × String × String) : Option (ℚ × String × String) :=
  match acc with
  | none => some cand
  | some cur => if cand.1 < cur.1 then some cand else some cur

/-- One iteration of the classification loop over the selection entries, for
one test point.  The lookup of the ideal column name happens before the try
block in the source, so a None name or a dangling name raises out of the
whole method (Except.error); failures of fit, predict, or the bounds lookup
are caught and skip the pair. -/
def pointStep (ideal : Table) (bounds : List (String × Option ℚ))
    (p : TestPoint) (acc : Option (ℚ × String × String))
    (entry : String × Option String) : Except Unit (Option (ℚ × String × String)) :=
  match entry.2 with
  | none => Except.error ()
  | some idealName =>
      match dictGet ideal.cols idealName with
      | none => Except.error ()
      | some ys =>
          match fitModel ideal.x ys with
          | none => Except.ok acc
          | some m =>
              let d := |p.y - predictAt m p.x|
              match dictGet bounds entry.1 with
              | none => Except.ok acc
              | some bOpt =>
                  if pairAccepted bOpt d then
                    Except.ok (updateMin acc (d, idealName, entry.1))
                  else Except.ok acc

/-- The loop over the selection entries for one test point, propagating an
uncaught exception. -/
def pointLoop (ideal : Table) (bounds : List (String × Option ℚ))
    (p : TestPoint) : List (String × Option String) →
    Option (ℚ × String × String) → Except Unit (Option (ℚ × String × String))
  | [], acc => Except.ok acc
  | e :: rest, acc =>
      match pointStep ideal bounds p acc e with
      | Except.error u => Except.error u
      | Except.ok acc2 => pointLoop ideal bounds p rest acc2

/-- Classification of one test point: run the loop over the selection, then
append a record only when a candidate was kept and its name is truthy (the
source tests the name with plain if, so the empty string also produces no
record). -/
def classifyPoint (ideal : Table) (sel : List (String × Option String))
    (bounds : List (String × Option ℚ)) (p : TestPoint) :
    Except Unit (Option MappingRecord) :=
  match pointLoop ideal bounds p sel none with
  | Except.error u => Except.error u
  | Except.ok none => Except.ok none
  | Except.ok (some cand) =>
      if cand.2.1 = "" then Except.ok none
      else Except.ok (some { x := p.x, y := p.y, deltaY := cand.1,
                             idealFunc := cand.2.1, trainingCol := cand.2.2 })

/-- The loop over the test rows of map_test_data_to_ideal_functions,
accumulating mapping_results and propagating an uncaught exception. -/
def mapLoop (ideal : Table) (sel : List (String × Option String))
    (bounds : List (String × Option ℚ)) : List TestPoint →
    List MappingRecord → Except Unit (List MappingRecord)
  | [], recs => Except.ok recs
  | p :: rest, recs =>
      match classifyPoint ideal sel bounds p with
      | Except.error u => Except.error u
      | Except.ok none => mapLoop ideal sel bounds rest recs
      | Except.ok (some r) => mapLoop ideal sel bounds rest (recs ++ [r])

/-- The record building part of map_test_data_to_ideal_functions. -/
def map_test_data (ideal : Table) (sel : List (String × Option String))
    (bounds : List (String × Option ℚ)) (test : List TestPoint) :
    Except Unit (List MappingRecord) :=
  mapLoop ideal sel bounds test []

/-- A row of the TestDataMapping results table: the training data column is
dropped before saving. -/
structure StoredRow where
  x : ℚ
  y : ℚ
  deltaY : ℚ
  idealFunc : String
  deriving DecidableEq

/-- The drop of the training_data_column before persisting. -/
def stripTrainCol (r : MappingRecord) : StoredRow :=
  { x := r.x, y := r.y, deltaY := r.deltaY, idealFunc := r.idealFunc }

/-- DataManager.save_data: pandas to_sql with if_exists replace, an existing
table of the same name is replaced wholesale. -/
def save_data (db : List (String × List StoredRow)) (table_name : String)
    (rows : List StoredRow) : List (String × List StoredRow) :=
  dictSet db table_name rows

/-- IdealFunctionsManager._store_results: save under the fixed table name. -/
def store_results (db : List (String × List StoredRow))
    (rows : List StoredRow) : List (String × List StoredRow) :=
  save_data db "TestDataMapping" rows

/-- Observable outcome of one run of map_test_data_to_ideal_functions:
the mapping records, whether the results were persisted (the drop of the
training_data_column raises on an empty frame, which the source catches,
skipping the store), whether the no-points-mapped error was reported, and
the resulting results database. -/
structure MapRunOutput where
  records : List MappingRecord
  stored : Bool
  errorReported : Bool
  db : List (String × List StoredRow)
  deriving DecidableEq

/-- IdealFunctionsManager.map_test_data_to_ideal_functions, classification
and persistence core (lines 217 to 294): build the records, persist them
when the frame is nonempty, and report the error when no point was
mapped. -/
def map_test_data_to_ideal_functions (ideal : Table)
    (sel : List (String × Option String)) (bounds : List (String × Option ℚ))
    (test : List TestPoint) (db : List (String × List StoredRow)) :
    Except Unit MapRunOutput :=
  match map_test_data ideal sel bounds test with
  | Except.error u => Except.error u
  | Except.ok recs =>
      if recs = [] then
        Except.ok { records := recs, stored := false, errorReported := true, db := db }
      else
        Except.ok { records := recs, stored := true, errorReported := false,
                    db := store_results db (recs.map stripTrainCol) }

/-!
Helper lemmas about the association list model.
-/

/-- Keys of an association list, in order. -/
def dictKeys {α : Type} (d : List (String × α)) : List String :=
  d.map (fun p => p.1)

theorem dictGet_dictSet_self {α : Type} (d : List (String × α)) (k : String) (v : α) :
    dictGet (dictSet d k v) k = some v := by
  induction d with
  | nil => simp [dictSet, dictGet]
  | cons p rest ih =>
      by_cases h : p.1 = k
      · simp [dictSet, h, dictGet]
      · simp [dictSet, h, dictGet, ih]

theorem dictGet_dictSet_ne {α : Type} (d : List (String × α)) (k k2 : String) (v : α)
    (h : k2 ≠ k) : dictGet (dictSet d k v) k2 = dictGet d k2 := by
  have hk : ¬ k = k2 := fun hh => h hh.symm
  induction d with
  | nil => simp [dictSet, dictGet, hk]
  | cons p rest ih =>
      by_cases hp : p.1 = k
      · have hp2 : ¬ p.1 = k2 := by rw [hp]; exact hk
        simp [dictSet, hp, dictGet, hp2, hk]
      · by_cases hq : p.1 = k2
        · simp [dictSet, hp, dictGet, hq, h]
        · simp [dictSet, hp, dictGet, hq, ih]

theorem dictGet_mem {α : Type} (d : List (String × α)) (k : String) (v : α)
    (h : dictGet d k = some v) : (k, v) ∈ d := by
  induction d with
  | nil => simp [dictGet] at h
  | cons p rest ih =>
      by_cases hp : p.1 = k
      · simp [dictGet, hp] at h
        have hkv : (k, v) = p := by
          rw [← hp, ← h]
        exact List.mem_cons.mpr (Or.inl hkv)
      · simp [dictGet, hp] at h
        exact List.mem_cons_of_mem p (ih h)

theorem dictKeys_dictSet_of_notMem {α : Type} (d : List (String × α)) (k : String) (v : α)
    (h : ¬ k ∈ dictKeys d) : dictKeys (dictSet d k v) = dictKeys d ++ [k] := by
  induction d with
  | nil => simp [dictSet, dictKeys]
  | cons p rest ih =>
      rw [show dictKeys (p :: rest) = p.1 :: dictKeys rest from rfl, List.mem_cons] at h
      push_neg at h
      obtain ⟨h1, h2⟩ := h
      have hp : ¬ p.1 = k := fun hh => h1 hh.symm
      rw [show dictSet (p :: rest) k v =
            if p.1 = k then (k, v) :: rest else p :: dictSet rest k v from rfl,
        if_neg hp]
      rw [show dictKeys (p :: dictSet rest k v) = p.1 :: dictKeys (dictSet rest k v) from rfl,
        ih h2]
      rfl

/-!
Helper lemmas about the inner selection sweep.
-/

theorem selectBest_append_singleton (x t : List ℚ) (l : List (String × List ℚ))
    (c : String × List ℚ) :
    selectBest x t (l ++ [c]) = selectStep x t (selectBest x t l) c := by
  simp [selectBest, List.foldl_append]

theorem selectBest_eq_none_iff (x t : List ℚ) (cols : List (String × List ℚ)) :
    selectBest x t cols = none ↔ ∀ c ∈ cols, pairDev x t c = none := by
  induction cols using List.reverseRecOn with
  | nil => simp [selectBest]
  | append_singleton l c ih =>
      rw [selectBest_append_singleton]
      constructor
      · intro h c2 hc2
        rcases hdev : pairDev x t c with _ | dev
        · have hacc : selectBest x t l = none := by
            unfold selectStep at h
            rw [show calculate_squared_deviation t c.2 x = pairDev x t c from rfl, hdev] at h
            exact h
          rcases List.mem_append.mp hc2 with h2 | h2
          · exact (ih.mp hacc) c2 h2
          · rw [List.mem_singleton.mp h2]; exact hdev
        · exfalso
          unfold selectStep at h
          rw [show calculate_squared_deviation t c.2 x = pairDev x t c from rfl, hdev] at h
          rcases hacc : selectBest x t l with _ | best
          · rw [hacc] at h; simp at h
          · rw [hacc] at h
            by_cases hlt : dev < best.2 <;> simp [hlt] at h
      · intro h
        have hc : pairDev x t c = none := h c (by simp)
        have hl : selectBest x t l = none :=
          ih.mpr (fun c2 hc2 => h c2 (List.mem_append.mpr (Or.inl hc2)))
        unfold selectStep
        rw [show calculate_squared_deviation t c.2 x = pairDev x t c from rfl, hc, hl]

theorem selectStep_none (x t : List ℚ) (acc : Option (String × ℚ))
    (c : String × List ℚ) (h : pairDev x t c = none) : selectStep x t acc c = acc := by
  unfold selectStep
  rw [show calculate_squared_deviation t c.2 x = pairDev x t c from rfl, h]

theorem selectStep_some_of_none (x t : List ℚ) (c : String × List ℚ) (dev : ℚ)
    (h : pairDev x t c = some dev) : selectStep x t none c = some (c.1, dev) := by
  unfold selectStep
  rw [show calculate_squared_deviation t c.2 x = pairDev x t c from rfl, h]

theorem selectStep_some_of_some (x t : List ℚ) (c : String × List ℚ) (dev : ℚ)
    (bn : String) (bd : ℚ) (h : pairDev x t c = some dev) :
    selectStep x t (some (bn, bd)) c =
      if dev < bd then some (c.1, dev) else some (bn, bd) := by
  unfold selectStep
  rw [show calculate_squared_deviation t c.2 x = pairDev x t c from rfl, h]

/-- Full characterization of the inner sweep result: the returned pair names
the first ideal column attaining the minimal successful squared deviation,
every strictly earlier column has a strictly larger deviation or a failed
fit, and the deviation is a lower bound over the whole pool. -/
theorem selectBest_spec (x t : List ℚ) (cols : List (String × List ℚ))
    (name : String) (dev : ℚ) (h : selectBest x t cols = some (name, dev)) :
    ∃ pre c post, cols = pre ++ c :: post ∧ c.1 = name ∧ pairDev x t c = some dev ∧
      (∀ c2 ∈ pre, ∀ d, pairDev x t c2 = some d → dev < d) ∧
      (∀ c2 ∈ cols, ∀ d, pairDev x t c2 = some d → dev ≤ d) := by
  revert h
  induction cols using List.reverseRecOn generalizing name dev with
  | nil => intro h; simp [selectBest] at h
  | append_singleton l c ih =>
      intro h
      rw [selectBest_append_singleton] at h
      rcases hdev : pairDev x t c with _ | devC
      · rw [selectStep_none x t _ c hdev] at h
        obtain ⟨pre, c0, post, hsplit, hname, hdev0, hpre, hall⟩ := ih name dev h
        refine ⟨pre, c0, post ++ [c], ?_, hname, hdev0, hpre, ?_⟩
        · rw [hsplit]; simp
        · intro c2 hc2 d hd
          rcases List.mem_append.mp hc2 with h2 | h2
          · exact hall c2 h2 d hd
          · rw [List.mem_singleton.mp h2] at hd
            rw [hdev] at hd
            exact absurd hd (by simp)
      · rcases hacc : selectBest x t l with _ | best
        · rw [hacc, selectStep_some_of_none x t c devC hdev] at h
          have hn : c.1 = name := (Prod.mk.injEq _ _ _ _).mp (Option.some.inj h) |>.1
          have hd : devC = dev := (Prod.mk.injEq _ _ _ _).mp (Option.some.inj h) |>.2
          have hallnone := (selectBest_eq_none_iff x t l).mp hacc
          refine ⟨l, c, [], by simp, hn, by rw [hdev, hd], ?_, ?_⟩
          · intro c2 hc2 d hdd
            rw [hallnone c2 hc2] at hdd
            exact absurd hdd (by simp)
          · intro c2 hc2 d hdd
            rcases List.mem_append.mp hc2 with h2 | h2
            · rw [hallnone c2 h2] at hdd
              exact absurd hdd (by simp)
            · rw [List.mem_singleton.mp h2] at hdd
              rw [hdev] at hdd
              rw [← hd, Option.some.inj hdd]
        · rcases best with ⟨bn, bd⟩
          rw [hacc, selectStep_some_of_some x t c devC bn bd hdev] at h
          obtain ⟨pre, c0, post, hsplit, hname, hdev0, hpre, hall⟩ := ih bn bd hacc
          by_cases hlt : devC < bd
          · rw [if_pos hlt] at h
            have hn : c.1 = name := (Prod.mk.injEq _ _ _ _).mp (Option.some.inj h) |>.1
            have hd : devC = dev := (Prod.mk.injEq _ _ _ _).mp (Option.some.inj h) |>.2
            refine ⟨l, c, [], by simp, hn, by rw [hdev, hd], ?_, ?_⟩
            · intro c2 hc2 d hdd
              rw [← hd]
              exact lt_of_lt_of_le hlt (hall c2 hc2 d hdd)
            · intro c2 hc2 d hdd
              rcases List.mem_append.mp hc2 with h2 | h2
              · rw [← hd]
                exact le_of_lt (lt_of_lt_of_le hlt (hall c2 h2 d hdd))
              · rw [List.mem_singleton.mp h2] at hdd
                rw [hdev] at hdd
                rw [← hd, Option.some.inj hdd]
          · rw [if_neg hlt] at h
            have hn : bn = name := (Prod.mk.injEq _ _ _ _).mp (Option.some.inj h) |>.1
            have hd : bd = dev := (Prod.mk.injEq _ _ _ _).mp (Option.some.inj h) |>.2
            refine ⟨pre, c0, post ++ [c], ?_, by rw [← hn, hname], by rw [← hd, hdev0], ?_, ?_⟩
            · rw [hsplit]; simp
            · intro c2 hc2 d hdd
              rw [← hd]
              exact hpre c2 hc2 d hdd
            · intro c2 hc2 d hdd
              rcases List.mem_append.mp hc2 with h2 | h2
              · rw [← hd]
                exact hall c2 h2 d hdd
              · rw [List.mem_singleton.mp h2] at hdd
                rw [hdev] at hdd
                rw [← hd, ← Option.some.inj hdd]
                exact le_of_not_lt hlt

/-!
Helper lemmas about the outer selection loop over the training columns.
-/

theorem foldl_selColStep_get_notMem (x : List ℚ) (icols : List (String × List ℚ))
    (cols : List (String × List ℚ)) (st : ManagerState) (k : String)
    (h : ¬ k ∈ cols.map (fun c => c.1)) :
    dictGet ((cols.foldl (selColStep x icols) st).ideal_functions_selection) k =
      dictGet st.ideal_functions_selection k ∧
    dictGet ((cols.foldl (selColStep x icols) st).training_data_max_deviations) k =
      dictGet st.training_data_max_deviations k := by
  induction cols generalizing st with
  | nil => exact ⟨rfl, rfl⟩
  | cons c rest ih =>
      rw [List.map_cons, List.mem_cons] at h
      push_neg at h
      obtain ⟨h1, h2⟩ := h
      have hrec := ih (selColStep x icols st c) h2
      rw [List.foldl_cons]
      refine ⟨?_, ?_⟩
      · rw [hrec.1]
        exact dictGet_dictSet_ne _ _ _ _ h1
      · rw [hrec.2]
        exact dictGet_dictSet_ne _ _ _ _ h1

theorem foldl_selColStep_get_mem (x : List ℚ) (icols : List (String × List ℚ))
    (cols : List (String × List ℚ)) (st : ManagerState) (tc : String × List ℚ)
    (hnodup : (cols.map (fun c => c.1)).Nodup) (htc : tc ∈ cols) :
    dictGet ((cols.foldl (selColStep x icols) st).ideal_functions_selection) tc.1 =
      some ((selectBest x tc.2 icols).map (fun p => p.1)) ∧
    dictGet ((cols.foldl (selColStep x icols) st).training_data_max_deviations) tc.1 =
      some (refitBound x icols tc.2 ((selectBest x tc.2 icols).map (fun p => p.1))) := by
  induction cols generalizing st with
  | nil => simp at htc
  | cons c rest ih =>
      rw [List.map_cons, List.nodup_cons] at hnodup
      obtain ⟨hh, ht⟩ := hnodup
      rw [List.foldl_cons]
      rcases List.mem_cons.mp htc with h1 | h1
      · subst h1
        have hpres := foldl_selColStep_get_notMem x icols rest (selColStep x icols st tc) tc.1 hh
        rw [hpres.1, hpres.2]
        exact ⟨dictGet_dictSet_self _ _ _, dictGet_dictSet_self _ _ _⟩
      · exact ih (selColStep x icols st c) ht h1

theorem dictKeys_foldl_selColStep (x : List ℚ) (icols : List (String × List ℚ))
    (cols : List (String × List ℚ)) (st : ManagerState)
    (hd : ∀ c ∈ cols, ¬ c.1 ∈ dictKeys st.ideal_functions_selection)
    (hnodup : (cols.map (fun c => c.1)).Nodup) :
    dictKeys ((cols.foldl (selColStep x icols) st).ideal_functions_selection) =
      dictKeys st.ideal_functions_selection ++ cols.map (fun c => c.1) := by
  induction cols generalizing st with
  | nil => simp
  | cons c rest ih =>
      rw [List.map_cons, List.nodup_cons] at hnodup
      obtain ⟨hh, ht⟩ := hnodup
      rw [List.foldl_cons]
      have hstep : dictKeys ((selColStep x icols st c).ideal_functions_selection) =
          dictKeys st.ideal_functions_selection ++ [c.1] :=
        dictKeys_dictSet_of_notMem _ _ _ (hd c (List.mem_cons_self c rest))
      have hd2 : ∀ c2 ∈ rest,
          ¬ c2.1 ∈ dictKeys ((selColStep x icols st c).ideal_functions_selection) := by
        intro c2 hc2
        rw [hstep]
        intro hmem
        rcases List.mem_append.mp hmem with hm | hm
        · exact hd c2 (List.mem_cons_of_mem c hc2) hm
        · refine hh ?_
          rw [← List.mem_singleton.mp hm]
          exact List.mem_map_of_mem (fun c => c.1) hc2
      rw [ih (selColStep x icols st c) hd2 ht, hstep]
      simp

theorem foldl_selColStep_selection_indep (x : List ℚ) (icols : List (String × List ℚ))
    (cols : List (String × List ℚ)) (s : List (String × Option String))
    (b1 b2 : List (String × Option ℚ)) :
    ((cols.foldl (selColStep x icols))
        { ideal_functions_selection := s, training_data_max_deviations := b1 }).ideal_functions_selection =
    ((cols.foldl (selColStep x icols))
        { ideal_functions_selection := s, training_data_max_deviations := b2 }).ideal_functions_selection := by
  induction cols generalizing s b1 b2 with
  | nil => rfl
  | cons c rest ih =>
      simp only [List.foldl_cons]
      exact ih _ _ _

/-!
Helper lemmas about the classification loops.
-/

theorem pointStep_none_name (ideal : Table) (bounds : List (String × Option ℚ))
    (p : TestPoint) (acc : Option (ℚ × String × String)) (e : String × Option String)
    (h : e.2 = (none : Option String)) :
    pointStep ideal bounds p acc e = Except.error () := by
  unfold pointStep
  rw [h]

theorem pointLoop_error_of_none_entry (ideal : Table) (bounds : List (String × Option ℚ))
    (p : TestPoint) (sel : List (String × Option String)) (t : String)
    (h : ((t, (none : Option String)) : String × Option String) ∈ sel) :
    ∀ acc, pointLoop ideal bounds p sel acc = Except.error () := by
  induction sel with
  | nil => simp at h
  | cons e rest ih =>
      intro acc
      rcases he : e.2 with _ | iname
      · simp only [pointLoop]
        rw [pointStep_none_name ideal bounds p acc e he]
      · have hmem : ((t, (none : Option String)) : String × Option String) ∈ rest := by
          rcases List.mem_cons.mp h with h1 | h1
          · exfalso
            rw [← h1] at he
            simp at he
          · exact h1
        simp only [pointLoop]
        rcases hstep : pointStep ideal bounds p acc e with u | acc2
        · cases u
          rfl
        · exact ih hmem acc2

theorem pointLoop_const (ideal : Table) (bounds : List (String × Option ℚ))
    (p : TestPoint) (sel : List (String × Option String))
    (h : ∀ e ∈ sel, ∀ acc, pointStep ideal bounds p acc e = Except.ok acc) :
    ∀ acc, pointLoop ideal bounds p sel acc = Except.ok acc := by
  induction sel with
  | nil => intro acc; rfl
  | cons e rest ih =>
      intro acc
      simp only [pointLoop]
      rw [h e (List.mem_cons_self e rest) acc]
      exact ih (fun e2 he2 => h e2 (List.mem_cons_of_mem e he2)) acc

theorem classifyPoint_of_loop_none (ideal : Table) (sel : List (String × Option String))
    (bounds : List (String × Option ℚ)) (p : TestPoint)
    (h : pointLoop ideal bounds p sel none = Except.ok none) :
    classifyPoint ideal sel bounds p = Except.ok none := by
  unfold classifyPoint
  rw [h]

theorem classifyPoint_of_loop_error (ideal : Table) (sel : List (String × Option String))
    (bounds : List (String × Option ℚ)) (p : TestPoint)
    (h : pointLoop ideal bounds p sel none = Except.error ()) :
    classifyPoint ideal sel bounds p = Except.error () := by
  unfold classifyPoint
  rw [h]

theorem classifyPoint_nil_sel (ideal : Table) (bounds : List (String × Option ℚ))
    (p : TestPoint) : classifyPoint ideal [] bounds p = Except.ok none := rfl

theorem mapLoop_error_head (ideal : Table) (sel : List (String × Option String))
    (bounds : List (String × Option ℚ)) (p : TestPoint) (rest : List TestPoint)
    (recs : List MappingRecord)
    (h : classifyPoint ideal sel bounds p = Except.error ()) :
    mapLoop ideal sel bounds (p :: rest) recs = Except.error () := by
  simp only [mapLoop]
  rw [h]

theorem mapLoop_all_none (ideal : Table) (sel : List (String × Option String))
    (bounds : List (String × Option ℚ)) (test : List TestPoint)
    (h : ∀ p ∈ test, classifyPoint ideal sel bounds p = Except.ok none) :
    ∀ recs, mapLoop ideal sel bounds test recs = Except.ok recs := by
  induction test with
  | nil => intro recs; rfl
  | cons p rest ih =>
      intro recs
      simp only [mapLoop]
      rw [h p (List.mem_cons_self p rest)]
      exact ih (fun q hq => h q (List.mem_cons_of_mem p hq)) recs

theorem mapLoop_skip_point (ideal : Table) (sel : List (String × Option String))
    (bounds : List (String × Option ℚ)) (p : TestPoint)
    (hp : classifyPoint ideal sel bounds p = Except.ok none) :
    ∀ l1 l2 recs, mapLoop ideal sel bounds (l1 ++ p :: l2) recs =
      mapLoop ideal sel bounds (l1 ++ l2) recs := by
  intro l1
  induction l1 with
  | nil =>
      intro l2 recs
      simp only [List.nil_append, mapLoop]
      rw [hp]
  | cons q l1 ih =>
      intro l2 recs
      simp only [List.cons_append, mapLoop]
      rcases hq : classifyPoint ideal sel bounds q with u | r
      · cases u
        rfl
      · rcases r with _ | r2
        · exact ih l2 recs
        · exact ih l2 (recs ++ [r2])

theorem mapRun_of_error (ideal : Table) (sel : List (String × Option String))
    (bounds : List (String × Option ℚ)) (test : List TestPoint)
    (db : List (String × List StoredRow))
    (h : map_test_data ideal sel bounds test = Except.error ()) :
    map_test_data_to_ideal_functions ideal sel bounds test db = Except.error () := by
  unfold map_test_data_to_ideal_functions
  rw [h]

/-!
Helper lemma bridging the rational acceptance test to the real inequality
with the square root of two.
-/

theorem acceptsBound_iff_real (d b : ℚ) (hd : 0 ≤ d) :
    acceptsBound d b = true ↔ (d : ℝ) ≤ (b : ℝ) * Real.sqrt 2 := by
  have hs : (0:ℝ) ≤ Real.sqrt 2 := Real.sqrt_nonneg 2
  have hs2 : Real.sqrt 2 ^ 2 = 2 := Real.sq_sqrt (by norm_num)
  have hd2 : (0:ℝ) ≤ (d:ℝ) := by exact_mod_cast hd
  unfold acceptsBound
  rw [Bool.and_eq_true, decide_eq_true_eq, decide_eq_true_eq]
  constructor
  · rintro ⟨hb, hq⟩
    have hb2 : (0:ℝ) ≤ (b:ℝ) := by exact_mod_cast hb
    have hq2 : (d:ℝ)^2 ≤ 2 * (b:ℝ)^2 := by exact_mod_cast hq
    have h22 : ((b:ℝ) * Real.sqrt 2)^2 = 2 * (b:ℝ)^2 := by
      rw [mul_pow, hs2]; ring
    have hq3 : (d:ℝ)^2 ≤ ((b:ℝ) * Real.sqrt 2)^2 := by rw [h22]; exact hq2
    exact (pow_le_pow_iff_left₀ hd2 (mul_nonneg hb2 hs) (by norm_num)).mp hq3
  · intro h
    have hb2 : (0:ℝ) ≤ (b:ℝ) := by
      by_contra hneg
      push_neg at hneg
      have hmul : (b:ℝ) * Real.sqrt 2 ≤ 0 := mul_nonpos_iff.mpr (Or.inr ⟨le_of_lt hneg, hs⟩)
      have hzero : (d:ℝ) = 0 := le_antisymm (le_trans h hmul) hd2
      have hsqrtpos : (0:ℝ) < Real.sqrt 2 := Real.sqrt_pos.mpr (by norm_num)
      nlinarith
    refine ⟨by exact_mod_cast hb2, ?_⟩
    have hq2 : (d:ℝ)^2 ≤ ((b:ℝ) * Real.sqrt 2)^2 := pow_le_pow_left₀ hd2 h 2
    rw [mul_pow, hs2] at hq2
    have hfin : (d:ℝ)^2 ≤ 2 * (b:ℝ)^2 := by linarith
    exact_mod_cast hfin

/-!
Helper lemmas for the constant x regression fallback.
-/

theorem list_sum_const (l : List ℚ) (c : ℚ) (h : ∀ a ∈ l, a = c) :
    l.sum = l.length * c := by
  induction l with
  | nil => simp
  | cons a rest ih =>
      simp only [List.sum_cons, List.length_cons]
      rw [h a (List.mem_cons_self a rest), ih (fun b hb => h b (List.mem_cons_of_mem a hb))]
      push_cast
      ring

theorem mean_const (l : List ℚ) (c : ℚ) (hne : l ≠ []) (h : ∀ a ∈ l, a = c) :
    mean l = c := by
  have hlen : (l.length : ℚ) ≠ 0 := by
    have : l.length ≠ 0 := fun hh => hne (List.length_eq_zero.mp hh)
    exact_mod_cast this
  unfold mean
  rw [list_sum_const l c h, mul_div_cancel_left₀ c hlen]

theorem fitLine_const_x (fx fy : List ℚ) (hne : fx ≠ [])
    (hconst : ∀ a ∈ fx, ∀ b ∈ fx, a = b) :
    fitLine fx fy = { slope := 0, intercept := mean fy } := by
  obtain ⟨c, hc⟩ : ∃ c, ∀ a ∈ fx, a = c := by
    cases fx with
    | nil => exact absurd rfl hne
    | cons a l => exact ⟨a, fun b hb => hconst b hb a (List.mem_cons_self a l)⟩
  have hmean : mean fx = c := mean_const fx c hne hc
  have hsxx : (fx.map (fun a => (a - mean fx) ^ 2)).sum = 0 := by
    apply List.sum_eq_zero
    intro y hy
    obtain ⟨a, ha, rfl⟩ := List.mem_map.mp hy
    rw [hmean, hc a ha]
    ring
  simp [fitLine, hsxx]

/-!
Claim theorems.
-/

/-- C1: for every training column, the selection entry stored by
get_ideal_functions names the ideal column whose linear refit on its own
grid has the minimal total squared deviation from the training column,
taken over all ideal columns whose fit succeeded, with ties broken in
favour of the first encountered ideal column in table column order. -/
theorem C1_selection_minimizes (train ideal : Table) (st : ManagerState)
    (hnodup : (train.cols.map (fun c => c.1)).Nodup)
    (tc : String × List ℚ) (htc : tc ∈ train.cols) (name : String) (dev : ℚ)
    (h : selectBest train.x tc.2 ideal.cols = some (name, dev)) :
    dictGet ((get_ideal_functions train ideal st).ideal_functions_selection) tc.1 =
      some (some name) ∧
    ∃ pre c post, ideal.cols = pre ++ c :: post ∧ c.1 = name ∧
      pairDev train.x tc.2 c = some dev ∧
      (∀ c2 ∈ pre, ∀ d, pairDev train.x tc.2 c2 = some d → dev < d) ∧
      (∀ c2 ∈ ideal.cols, ∀ d, pairDev train.x tc.2 c2 = some d → dev ≤ d) := by
  constructor
  · have hm := (foldl_selColStep_get_mem train.x ideal.cols train.cols
      { ideal_functions_selection := [],
        training_data_max_deviations := st.training_data_max_deviations }
      tc hnodup htc).1
    unfold get_ideal_functions
    rw [hm, h]
    rfl
  · exact selectBest_spec train.x tc.2 ideal.cols name dev h

/-- Witness for C1 at a concrete pair of tables: the training column t1 with
values 0, 1 picks i1 (an exact linear match, deviation 0) over i2. -/
theorem C1_witness :
    ((([("t1", [0, 1])] : List (String × List ℚ)).map (fun c => c.1)).Nodup ∧
     (("t1", [0, 1]) ∈ ([("t1", [0, 1])] : List (String × List ℚ))) ∧
     selectBest [0, 1] [0, 1] [("i1", [0, 1]), ("i2", [5, 5])] = some ("i1", 0)) ∧
    (dictGet ((get_ideal_functions { x := [0, 1], cols := [("t1", [0, 1])] }
        { x := [0, 1], cols := [("i1", [0, 1]), ("i2", [5, 5])] }
        initState).ideal_functions_selection) "t1" = some (some "i1") ∧
     ∃ pre c post,
       ([("i1", [0, 1]), ("i2", [5, 5])] : List (String × List ℚ)) = pre ++ c :: post ∧
       c.1 = "i1" ∧ pairDev [0, 1] [0, 1] c = some 0 ∧
       (∀ c2 ∈ pre, ∀ d, pairDev [0, 1] [0, 1] c2 = some d → 0 < d) ∧
       (∀ c2 ∈ ([("i1", [0, 1]), ("i2", [5, 5])] : List (String × List ℚ)), ∀ d,
         pairDev [0, 1] [0, 1] c2 = some d → 0 ≤ d)) :=
  ⟨⟨by simp, by simp, by
      simp [selectBest, selectStep, calculate_squared_deviation, fitModel, fitLine,
        mean, predictAt]
      norm_num⟩,
   C1_selection_minimizes { x := [0, 1], cols := [("t1", [0, 1])] }
     { x := [0, 1], cols := [("i1", [0, 1]), ("i2", [5, 5])] } initState
     (by simp) ("t1", [0, 1]) (by simp) "i1" 0
     (by
       simp [selectBest, selectStep, calculate_squared_deviation, fitModel, fitLine,
         mean, predictAt]
       norm_num)⟩

/-- C2: inside the classification loop, a (train, ideal) pair whose name
resolves and whose fit succeeds updates the running minimum exactly when the
acceptance test passes, and for a nonnegative deviation d the acceptance
test passes exactly when d is at most the stored bound times the square root
of two; a NaN bound (none) never passes. -/
theorem C2_acceptance_criterion (ideal : Table) (bounds : List (String × Option ℚ))
    (p : TestPoint) (acc : Option (ℚ × String × String)) (tname iname : String)
    (ys : List ℚ) (m : LinFit) (bOpt : Option ℚ)
    (hcol : dictGet ideal.cols iname = some ys)
    (hfit : fitModel ideal.x ys = some m)
    (hb : dictGet bounds tname = some bOpt) :
    pointStep ideal bounds p acc (tname, some iname) =
      (if pairAccepted bOpt (|p.y - predictAt m p.x|) then
        Except.ok (updateMin acc (|p.y - predictAt m p.x|, iname, tname))
      else Except.ok acc) ∧
    (∀ d : ℚ, 0 ≤ d →
      (pairAccepted bOpt d = true ↔
        ∃ b, bOpt = some b ∧ (d : ℝ) ≤ (b : ℝ) * Real.sqrt 2)) := by
  constructor
  · simp only [pointStep, hcol, hfit, hb]
  · intro d hd
    cases bOpt with
    | none => simp [pairAccepted]
    | some b => simp [pairAccepted, acceptsBound_iff_real d b hd]

/-- Witness for C2 at a concrete configuration: deviation 1 against bound 1
is accepted since 1 is below the square root of two. -/
theorem C2_witness :
    (dictGet (({ x := [0, 1], cols := [("i1", [0, 1])] } : Table)).cols "i1" = some [0, 1] ∧
     fitModel [0, 1] [0, 1] = some { slope := 1, intercept := 0 } ∧
     dictGet ([("t1", some 1)] : List (String × Option ℚ)) "t1" = some (some 1)) ∧
    (pointStep { x := [0, 1], cols := [("i1", [0, 1])] } [("t1", some 1)]
        { x := 0, y := 1 } none ("t1", some "i1") =
      (if pairAccepted (some 1)
          (|({ x := 0, y := 1 } : TestPoint).y -
            predictAt { slope := 1, intercept := 0 } ({ x := 0, y := 1 } : TestPoint).x|) then
        Except.ok (updateMin none
          (|({ x := 0, y := 1 } : TestPoint).y -
            predictAt { slope := 1, intercept := 0 } ({ x := 0, y := 1 } : TestPoint).x|,
            "i1", "t1"))
      else Except.ok none) ∧
     (∀ d : ℚ, 0 ≤ d →
       (pairAccepted (some 1) d = true ↔
         ∃ b, (some 1 : Option ℚ) = some b ∧ (d : ℝ) ≤ (b : ℝ) * Real.sqrt 2))) :=
  ⟨⟨by simp [dictGet], by simp [fitModel, fitLine, mean]; norm_num, by simp [dictGet]⟩,
   C2_acceptance_criterion { x := [0, 1], cols := [("i1", [0, 1])] } [("t1", some 1)]
     { x := 0, y := 1 } none "t1" "i1" [0, 1] { slope := 1, intercept := 0 } (some 1)
     (by simp [dictGet]) (by simp [fitModel, fitLine, mean]; norm_num) (by simp [dictGet])⟩

/-- C3 counterexample: with a training column t1 whose only ideal fit fails
(the ideal column has a different length than the training grid), the column
is PRESENT in the selection dict with value None and PRESENT in the max
deviation dict with value NaN, and classification on a nonempty test
sequence raises instead of skipping it, refuting the claimed absence and
the claimed error free skip. -/
theorem C3_counterexample :
    dictGet ((get_ideal_functions { x := [0, 1], cols := [("t1", [0, 1])] }
        { x := [0, 1, 2], cols := [("i1", [0, 1, 2])] }
        initState).ideal_functions_selection) "t1" = some none ∧
    dictGet ((get_ideal_functions { x := [0, 1], cols := [("t1", [0, 1])] }
        { x := [0, 1, 2], cols := [("i1", [0, 1, 2])] }
        initState).training_data_max_deviations) "t1" = some none ∧
    map_test_data_to_ideal_functions { x := [0, 1, 2], cols := [("i1", [0, 1, 2])] }
      ((get_ideal_functions { x := [0, 1], cols := [("t1", [0, 1])] }
        { x := [0, 1, 2], cols := [("i1", [0, 1, 2])] }
        initState).ideal_functions_selection)
      ((get_ideal_functions { x := [0, 1], cols := [("t1", [0, 1])] }
        { x := [0, 1, 2], cols := [("i1", [0, 1, 2])] }
        initState).training_data_max_deviations)
      [{ x := 0, y := 0 }] [] = Except.error () := by
  refine ⟨?_, ?_, ?_⟩ <;>
  · simp [get_ideal_functions, initState, selColStep, selectBest, selectStep,
      calculate_squared_deviation, fitModel, fitLine, mean, predictAt, refitBound,
      dictGet, dictSet, listMax, map_test_data_to_ideal_functions, map_test_data,
      mapLoop, classifyPoint, pointLoop, pointStep]

/-- C3 amended: after selection, the selection dict has exactly one entry for
EVERY training column, including a column for which every ideal fit fails:
such a column is present with a None selection value and present in the max
deviation dict with a NaN value, and running classification on a nonempty
test sequence with that state raises an error rather than skipping the
column. -/
theorem C3_amended_presence (train ideal : Table) (st : ManagerState)
    (hnodup : (train.cols.map (fun c => c.1)).Nodup)
    (tc : String × List ℚ) (htc : tc ∈ train.cols)
    (hfail : ∀ c ∈ ideal.cols, pairDev train.x tc.2 c = none) :
    dictKeys ((get_ideal_functions train ideal st).ideal_functions_selection) =
      train.cols.map (fun c => c.1) ∧
    dictGet ((get_ideal_functions train ideal st).ideal_functions_selection) tc.1 =
      some none ∧
    dictGet ((get_ideal_functions train ideal st).training_data_max_deviations) tc.1 =
      some none ∧
    ∀ (p : TestPoint) (rest : List TestPoint) (db : List (String × List StoredRow)),
      map_test_data_to_ideal_functions ideal
        ((get_ideal_functions train ideal st).ideal_functions_selection)
        ((get_ideal_functions train ideal st).training_data_max_deviations)
        (p :: rest) db = Except.error () := by
  have hnone : selectBest train.x tc.2 ideal.cols = none :=
    (selectBest_eq_none_iff _ _ _).mpr hfail
  have hm := foldl_selColStep_get_mem train.x ideal.cols train.cols
    { ideal_functions_selection := [],
      training_data_max_deviations := st.training_data_max_deviations } tc hnodup htc
  have hsel : dictGet ((get_ideal_functions train ideal st).ideal_functions_selection) tc.1 =
      some none := by
    unfold get_ideal_functions
    rw [hm.1, hnone]
    rfl
  have hbound : dictGet ((get_ideal_functions train ideal st).training_data_max_deviations) tc.1 =
      some none := by
    unfold get_ideal_functions
    rw [hm.2, hnone]
    rfl
  refine ⟨?_, hsel, hbound, ?_⟩
  · unfold get_ideal_functions
    rw [dictKeys_foldl_selColStep train.x ideal.cols train.cols _
      (by intro c hc; simp [dictKeys]) hnodup]
    simp [dictKeys]
  · intro p rest db
    apply mapRun_of_error
    unfold map_test_data
    apply mapLoop_error_head
    apply classifyPoint_of_loop_error
    exact pointLoop_error_of_none_entry ideal _ p _ tc.1 (dictGet_mem _ _ _ hsel) none

/-- Witness for C3 amended at the concrete failing tables. -/
theorem C3_witness :
    ((([("ta", [0, 1])] : List (String × List ℚ)).map (fun c => c.1)).Nodup ∧
     (("ta", [0, 1]) ∈ ([("ta", [0, 1])] : List (String × List ℚ))) ∧
     (∀ c ∈ ([("ia", [0, 1, 2])] : List (String × List ℚ)),
       pairDev [0, 1] [0, 1] c = none)) ∧
    (dictKeys ((get_ideal_functions { x := [0, 1], cols := [("ta", [0, 1])] }
        { x := [0, 1, 2], cols := [("ia", [0, 1, 2])] }
        initState).ideal_functions_selection) =
      ([("ta", [0, 1])] : List (String × List ℚ)).map (fun c => c.1) ∧
     dictGet ((get_ideal_functions { x := [0, 1], cols := [("ta", [0, 1])] }
        { x := [0, 1, 2], cols := [("ia", [0, 1, 2])] }
        initState).ideal_functions_selection) "ta" = some none ∧
     dictGet ((get_ideal_functions { x := [0, 1], cols := [("ta", [0, 1])] }
        { x := [0, 1, 2], cols := [("ia", [0, 1, 2])] }
        initState).training_data_max_deviations) "ta" = some none ∧
     ∀ (p : TestPoint) (rest : List TestPoint) (db : List (String × List StoredRow)),
       map_test_data_to_ideal_functions { x := [0, 1, 2], cols := [("ia", [0, 1, 2])] }
         ((get_ideal_functions { x := [0, 1], cols := [("ta", [0, 1])] }
           { x := [0, 1, 2], cols := [("ia", [0, 1, 2])] }
           initState).ideal_functions_selection)
         ((get_ideal_functions { x := [0, 1], cols := [("ta", [0, 1])] }
           { x := [0, 1, 2], cols := [("ia", [0, 1, 2])] }
           initState).training_data_max_deviations)
         (p :: rest) db = Except.error ()) :=
  ⟨⟨by simp, by simp, by
      intro c hc
      rw [List.mem_singleton.mp hc]
      simp [pairDev, calculate_squared_deviation, fitModel]⟩,
   C3_amended_presence { x := [0, 1], cols := [("ta", [0, 1])] }
     { x := [0, 1, 2], cols := [("ia", [0, 1, 2])] } initState
     (by simp) ("ta", [0, 1]) (by simp)
     (by
       intro c hc
       rw [List.mem_singleton.mp hc]
       simp [pairDev, calculate_squared_deviation, fitModel])⟩

/-- C4: when the refit step for a training column fails, the max deviation
dict records NaN (none) for it and the selection loop still completes,
producing an entry for every training column. -/
theorem C4_refit_failure (train ideal : Table) (st : ManagerState)
    (hnodup : (train.cols.map (fun c => c.1)).Nodup)
    (tc : String × List ℚ) (htc : tc ∈ train.cols)
    (hfail : refitBound train.x ideal.cols tc.2
      ((selectBest train.x tc.2 ideal.cols).map (fun p => p.1)) = none) :
    dictGet ((get_ideal_functions train ideal st).training_data_max_deviations) tc.1 =
      some none ∧
    dictKeys ((get_ideal_functions train ideal st).ideal_functions_selection) =
      train.cols.map (fun c => c.1) := by
  have hm := foldl_selColStep_get_mem train.x ideal.cols train.cols
    { ideal_functions_selection := [],
      training_data_max_deviations := st.training_data_max_deviations } tc hnodup htc
  constructor
  · unfold get_ideal_functions
    rw [hm.2, hfail]
  · unfold get_ideal_functions
    rw [dictKeys_foldl_selColStep train.x ideal.cols train.cols _
      (by intro c hc; simp [dictKeys]) hnodup]
    simp [dictKeys]

/-- Witness for C4 at a concrete table where the refit of the chosen column
fails because no fit succeeded and the stored best name is None. -/
theorem C4_witness :
    ((([("tb", [0, 1])] : List (String × List ℚ)).map (fun c => c.1)).Nodup ∧
     (("tb", [0, 1]) ∈ ([("tb", [0, 1])] : List (String × List ℚ))) ∧
     refitBound [0, 1] [("ib", [0, 1, 2])] [0, 1]
       ((selectBest [0, 1] [0, 1] [("ib", [0, 1, 2])]).map (fun p => p.1)) = none) ∧
    (dictGet ((get_ideal_functions { x := [0, 1], cols := [("tb", [0, 1])] }
        { x := [0, 1, 2], cols := [("ib", [0, 1, 2])] }
        initState).training_data_max_deviations) "tb" = some none ∧
     dictKeys ((get_ideal_functions { x := [0, 1], cols := [("tb", [0, 1])] }
        { x := [0, 1, 2], cols := [("ib", [0, 1, 2])] }
        initState).ideal_functions_selection) =
      ([("tb", [0, 1])] : List (String × List ℚ)).map (fun c => c.1)) :=
  ⟨⟨by simp, by simp, by
      simp [refitBound, selectBest, selectStep, calculate_squared_deviation, fitModel]⟩,
   C4_refit_failure { x := [0, 1], cols := [("tb", [0, 1])] }
     { x := [0, 1, 2], cols := [("ib", [0, 1, 2])] } initState
     (by simp) ("tb", [0, 1]) (by simp)
     (by simp [refitBound, selectBest, selectStep, calculate_squared_deviation, fitModel])⟩

/-- C5: invoking classification with an empty selection (no selection run has
produced any entry) neither raises nor silently succeeds: it completes with
no records, stores nothing, and reports the no-points-mapped error. -/
theorem C5_empty_selection_reports (ideal : Table) (bounds : List (String × Option ℚ))
    (test : List TestPoint) (db : List (String × List StoredRow)) :
    map_test_data_to_ideal_functions ideal [] bounds test db =
      Except.ok { records := [], stored := false, errorReported := true, db := db } := by
  have h1 : map_test_data ideal [] bounds test = Except.ok [] := by
    unfold map_test_data
    exact mapLoop_all_none ideal [] bounds test
      (fun p _ => classifyPoint_nil_sel ideal bounds p) []
  unfold map_test_data_to_ideal_functions
  rw [h1]
  simp

/-- C6 counterexample: a first run over training columns a and b followed by
a second run over column a only leaves the entry for b from the first run in
the max deviation dict, so the two dicts are merged rather than overwritten,
refuting the claim that no entry of the first run survives. -/
theorem C6_counterexample :
    dictGet ((get_ideal_functions { x := [0, 1], cols := [("a", [0, 1])] }
        { x := [0, 1], cols := [("i1", [0, 1])] }
        (get_ideal_functions { x := [0, 1], cols := [("a", [0, 1]), ("b", [1, 2])] }
          { x := [0, 1], cols := [("i1", [0, 1])] }
          initState)).training_data_max_deviations) "b" = some (some 1) := by
  simp [get_ideal_functions, initState, selColStep, selectBest, selectStep,
    calculate_squared_deviation, fitModel, fitLine, mean, predictAt, refitBound,
    dictGet, dictSet, listMax]
  norm_num

/-- C6 amended: a subsequent selection run rebuilds the selection dict from
scratch (its result does not depend on the prior state), while the max
deviation dict is updated in place: entries for training columns of the new
run are recomputed, and entries for training columns absent from the new run
survive unchanged from the prior state. -/
theorem C6_amended_overwrite_vs_merge (train ideal : Table) (st : ManagerState) :
    (get_ideal_functions train ideal st).ideal_functions_selection =
      (get_ideal_functions train ideal initState).ideal_functions_selection ∧
    (∀ k, ¬ k ∈ train.cols.map (fun c => c.1) →
      dictGet ((get_ideal_functions train ideal st).training_data_max_deviations) k =
        dictGet st.training_data_max_deviations k) ∧
    ((train.cols.map (fun c => c.1)).Nodup → ∀ tc ∈ train.cols,
      dictGet ((get_ideal_functions train ideal st).training_data_max_deviations) tc.1 =
        some (refitBound train.x ideal.cols tc.2
          ((selectBest train.x tc.2 ideal.cols).map (fun p => p.1)))) := by
  refine ⟨?_, ?_, ?_⟩
  · unfold get_ideal_functions
    exact foldl_selColStep_selection_indep train.x ideal.cols train.cols []
      st.training_data_max_deviations initState.training_data_max_deviations
  · intro k hk
    unfold get_ideal_functions
    exact (foldl_selColStep_get_notMem train.x ideal.cols train.cols _ k hk).2
  · intro hnodup tc htc
    unfold get_ideal_functions
    exact (foldl_selColStep_get_mem train.x ideal.cols train.cols _ tc hnodup htc).2

/-- Witness for C6 amended: a stale entry for b survives a run over column a
only. -/
theorem C6_witness :
    (¬ ("b" : String) ∈ ([("a", [0, 1])] : List (String × List ℚ)).map (fun c => c.1)) ∧
    dictGet ((get_ideal_functions { x := [0, 1], cols := [("a", [0, 1])] }
        { x := [0, 1], cols := [("i1", [0, 1])] }
        { ideal_functions_selection := [("a", some "i1")],
          training_data_max_deviations := [("b", some 5)] }).training_data_max_deviations) "b" =
      dictGet ([("b", some 5)] : List (String × Option ℚ)) "b" :=
  ⟨by simp,
   (C6_amended_overwrite_vs_merge { x := [0, 1], cols := [("a", [0, 1])] }
     { x := [0, 1], cols := [("i1", [0, 1])] }
     { ideal_functions_selection := [("a", some "i1")],
       training_data_max_deviations := [("b", some 5)] }).2.1 "b" (by simp)⟩

/-- C7 counterexample: two ideal columns with identical data tie on the
minimal squared deviation; presenting them in swapped order changes the
selected name, refuting order independence of the selection itself. -/
theorem C7_counterexample :
    dictGet ((get_ideal_functions { x := [0, 1], cols := [("t1", [0, 1])] }
        { x := [0, 1], cols := [("i1", [0, 1]), ("i2", [0, 1])] }
        initState).ideal_functions_selection) "t1" = some (some "i1") ∧
    dictGet ((get_ideal_functions { x := [0, 1], cols := [("t1", [0, 1])] }
        { x := [0, 1], cols := [("i2", [0, 1]), ("i1", [0, 1])] }
        initState).ideal_functions_selection) "t1" = some (some "i2") ∧
    ("i1" : String) ≠ "i2" := by
  refine ⟨?_, ?_, by decide⟩ <;>
  · simp [get_ideal_functions, initState, selColStep, selectBest, selectStep,
      calculate_squared_deviation, fitModel, fitLine, mean, predictAt, refitBound,
      dictGet, dictSet, listMax]

/-- C7 amended: presenting the ideal columns in a shuffled order leaves the
minimal squared deviation unchanged, and leaves the selected column itself
unchanged provided the minimal deviation is attained by a unique ideal
column; with ties the first column in presentation order wins, so the
selected name may change. -/
theorem C7_amended_order_independence (x t : List ℚ)
    (cols cols2 : List (String × List ℚ)) (hperm : List.Perm cols cols2) :
    ((selectBest x t cols).map (fun p => p.2) =
      (selectBest x t cols2).map (fun p => p.2)) ∧
    ((∀ c1 ∈ cols, ∀ c2 ∈ cols, ∀ d, pairDev x t c1 = some d → pairDev x t c2 = some d →
        (∀ c3 ∈ cols, ∀ e, pairDev x t c3 = some e → d ≤ e) → c1 = c2) →
      selectBest x t cols = selectBest x t cols2) := by
  have hnone : selectBest x t cols = none ↔ selectBest x t cols2 = none := by
    rw [selectBest_eq_none_iff, selectBest_eq_none_iff]
    constructor
    · intro h c hc
      exact h c (hperm.mem_iff.mpr hc)
    · intro h c hc
      exact h c (hperm.mem_iff.mp hc)
  rcases hs1 : selectBest x t cols with _ | p1
  · have hs2 : selectBest x t cols2 = none := hnone.mp hs1
    rw [hs2]
    exact ⟨rfl, fun _ => rfl⟩
  · rcases p1 with ⟨n1, d1⟩
    rcases hs2 : selectBest x t cols2 with _ | p2
    · rw [hnone.mpr hs2] at hs1
      exact absurd hs1 (by simp)
    · rcases p2 with ⟨n2, d2⟩
      obtain ⟨pre1, c1, post1, hsplit1, hname1, hdev1, hpre1, hall1⟩ :=
        selectBest_spec x t cols n1 d1 hs1
      obtain ⟨pre2, c2, post2, hsplit2, hname2, hdev2, hpre2, hall2⟩ :=
        selectBest_spec x t cols2 n2 d2 hs2
      have hc1mem : c1 ∈ cols := by
        rw [hsplit1]
        exact List.mem_append.mpr (Or.inr (List.mem_cons_self _ _))
      have hc2mem2 : c2 ∈ cols2 := by
        rw [hsplit2]
        exact List.mem_append.mpr (Or.inr (List.mem_cons_self _ _))
      have hc2mem : c2 ∈ cols := hperm.mem_iff.mpr hc2mem2
      have hd12 : d1 = d2 :=
        le_antisymm (hall1 c2 hc2mem d2 hdev2)
          (hall2 c1 (hperm.mem_iff.mp hc1mem) d1 hdev1)
      constructor
      · simp [hd12]
      · intro huniq
        have heq : c1 = c2 :=
          huniq c1 hc1mem c2 hc2mem d1 hdev1 (by rw [hd12]; exact hdev2) hall1
        rw [← hname1, ← hname2, heq, hd12]

/-- Witness for C7 amended: two ideal columns with distinct deviations, in
the two orders. -/
theorem C7_witness :
    (List.Perm ([("i1", [0, 1]), ("i2", [5, 5])] : List (String × List ℚ))
      [("i2", [5, 5]), ("i1", [0, 1])]) ∧
    (((selectBest [0, 1] [0, 1] [("i1", [0, 1]), ("i2", [5, 5])]).map (fun p => p.2) =
      (selectBest [0, 1] [0, 1] [("i2", [5, 5]), ("i1", [0, 1])]).map (fun p => p.2)) ∧
     ((∀ c1 ∈ ([("i1", [0, 1]), ("i2", [5, 5])] : List (String × List ℚ)),
         ∀ c2 ∈ ([("i1", [0, 1]), ("i2", [5, 5])] : List (String × List ℚ)),
         ∀ d, pairDev [0, 1] [0, 1] c1 = some d → pairDev [0, 1] [0, 1] c2 = some d →
         (∀ c3 ∈ ([("i1", [0, 1]), ("i2", [5, 5])] : List (String × List ℚ)),
           ∀ e, pairDev [0, 1] [0, 1] c3 = some e → d ≤ e) → c1 = c2) →
       selectBest [0, 1] [0, 1] [("i1", [0, 1]), ("i2", [5, 5])] =
         selectBest [0, 1] [0, 1] [("i2", [5, 5]), ("i1", [0, 1])])) :=
  ⟨List.Perm.swap _ _ _,
   C7_amended_order_independence [0, 1] [0, 1] [("i1", [0, 1]), ("i2", [5, 5])]
     [("i2", [5, 5]), ("i1", [0, 1])] (List.Perm.swap _ _ _)⟩

/-- C8: a test point for which no selection pair passes the acceptance test
produces no mapping record (dropping it from the test list leaves the output
unchanged), and classifying an empty test sequence completes without error
with an empty record list. -/
theorem C8_unmatched_dropped (ideal : Table) (sel : List (String × Option String))
    (bounds : List (String × Option ℚ)) (p : TestPoint)
    (hnoacc : ∀ e ∈ sel, ∀ acc, pointStep ideal bounds p acc e = Except.ok acc) :
    classifyPoint ideal sel bounds p = Except.ok none ∧
    (∀ l1 l2, map_test_data ideal sel bounds (l1 ++ p :: l2) =
      map_test_data ideal sel bounds (l1 ++ l2)) ∧
    (∀ db, map_test_data_to_ideal_functions ideal sel bounds [] db =
      Except.ok { records := [], stored := false, errorReported := true, db := db }) := by
  have hcp : classifyPoint ideal sel bounds p = Except.ok none :=
    classifyPoint_of_loop_none _ _ _ _ (pointLoop_const ideal bounds p sel hnoacc none)
  refine ⟨hcp, ?_, ?_⟩
  · intro l1 l2
    unfold map_test_data
    exact mapLoop_skip_point ideal sel bounds p hcp l1 l2 []
  · intro db
    have h1 : map_test_data ideal sel bounds [] = Except.ok [] := rfl
    unfold map_test_data_to_ideal_functions
    rw [h1]
    simp

/-- Witness for C8: a far away test point (deviation 5 against bound 0) is
rejected by the only selection pair and so produces no record. -/
theorem C8_witness :
    (∀ e ∈ ([("t1", some "i1")] : List (String × Option String)), ∀ acc,
      pointStep { x := [0, 1], cols := [("i1", [0, 1])] } [("t1", some 0)]
        { x := 0, y := 5 } acc e = Except.ok acc) ∧
    (classifyPoint { x := [0, 1], cols := [("i1", [0, 1])] } [("t1", some "i1")]
        [("t1", some 0)] { x := 0, y := 5 } = Except.ok none ∧
     (∀ l1 l2, map_test_data { x := [0, 1], cols := [("i1", [0, 1])] }
        [("t1", some "i1")] [("t1", some 0)] (l1 ++ { x := 0, y := 5 } :: l2) =
       map_test_data { x := [0, 1], cols := [("i1", [0, 1])] }
        [("t1", some "i1")] [("t1", some 0)] (l1 ++ l2)) ∧
     (∀ db, map_test_data_to_ideal_functions { x := [0, 1], cols := [("i1", [0, 1])] }
        [("t1", some "i1")] [("t1", some 0)] [] db =
       Except.ok { records := [], stored := false, errorReported := true, db := db })) :=
  ⟨by
    intro e he acc
    rw [List.mem_singleton.mp he]
    simp [pointStep, dictGet, fitModel, fitLine, mean, predictAt, pairAccepted,
      acceptsBound]
    norm_num,
   C8_unmatched_dropped { x := [0, 1], cols := [("i1", [0, 1])] } [("t1", some "i1")]
     [("t1", some 0)] { x := 0, y := 5 }
     (by
       intro e he acc
       rw [List.mem_singleton.mp he]
       simp [pointStep, dictGet, fitModel, fitLine, mean, predictAt, pairAccepted,
         acceptsBound]
       norm_num)⟩

/-- C9: when the fit x values all coincide, the regression still returns a
defined model, with the documented fallback slope 0 and intercept the mean
of the fit y values, so the prediction at any query point is that mean. -/
theorem C9_constant_x_fallback (fx fy : List ℚ) (q : ℚ) (hne : fx ≠ [])
    (hlen : fx.length = fy.length) (hconst : ∀ a ∈ fx, ∀ b ∈ fx, a = b) :
    fitModel fx fy = some { slope := 0, intercept := mean fy } ∧
    (fitModel fx fy).map (fun m => predictAt m q) = some (mean fy) := by
  have h1 : fitModel fx fy = some (fitLine fx fy) := by
    simp [fitModel, hlen, hne]
  rw [h1, fitLine_const_x fx fy hne hconst]
  refine ⟨rfl, ?_⟩
  simp [predictAt]

/-- Witness for C9: constant grid 2, 2 with values 1, 3 predicts the mean 2
at the query point 7. -/
theorem C9_witness :
    (([2, 2] : List ℚ) ≠ [] ∧ ([2, 2] : List ℚ).length = ([1, 3] : List ℚ).length ∧
     (∀ a ∈ ([2, 2] : List ℚ), ∀ b ∈ ([2, 2] : List ℚ), a = b)) ∧
    (fitModel [2, 2] [1, 3] = some { slope := 0, intercept := mean [1, 3] } ∧
     (fitModel [2, 2] [1, 3]).map (fun m => predictAt m 7) = some (mean [1, 3])) :=
  ⟨⟨by simp, by simp, by
      intro a ha b hb
      rcases List.mem_cons.mp ha with h1 | h1
      · rcases List.mem_cons.mp hb with h2 | h2
        · rw [h1, h2]
        · rw [h1, List.mem_singleton.mp h2]
      · rcases List.mem_cons.mp hb with h2 | h2
        · rw [List.mem_singleton.mp h1, h2]
        · rw [List.mem_singleton.mp h1, List.mem_singleton.mp h2]⟩,
   C9_constant_x_fallback [2, 2] [1, 3] 7 (by simp) (by simp)
     (by
       intro a ha b hb
       rcases List.mem_cons.mp ha with h1 | h1
       · rcases List.mem_cons.mp hb with h2 | h2
         · rw [h1, h2]
         · rw [h1, List.mem_singleton.mp h2]
       · rcases List.mem_cons.mp hb with h2 | h2
         · rw [List.mem_singleton.mp h1, h2]
         · rw [List.mem_singleton.mp h1, List.mem_singleton.mp h2])⟩

/-- C10 counterexample: a first map run persists one record; a second run
with an empty test list produces no records, stores nothing (the column drop
on the empty frame raises and is caught), and the table from the first run
survives, refuting the claim that after every pair of consecutive runs the
stored table holds only the records of the most recent run. -/
theorem C10_counterexample :
    map_test_data_to_ideal_functions { x := [0, 1], cols := [("i1", [0, 1])] }
      [("t1", some "i1")] [("t1", some 1)] [{ x := 0, y := 0 }] [] =
      Except.ok { records := [{ x := 0, y := 0, deltaY := 0, idealFunc := "i1", trainingCol := "t1" }], stored := true, errorReported := false, db := [("TestDataMapping", [{ x := 0, y := 0, deltaY := 0, idealFunc := "i1" }])] } ∧
    map_test_data_to_ideal_functions { x := [0, 1], cols := [("i1", [0, 1])] }
      [("t1", some "i1")] [("t1", some 1)] [] [("TestDataMapping", [{ x := 0, y := 0, deltaY := 0, idealFunc := "i1" }])] =
      Except.ok { records := [], stored := false, errorReported := true, db := [("TestDataMapping", [{ x := 0, y := 0, deltaY := 0, idealFunc := "i1" }])] } := by
  constructor
  · simp [map_test_data_to_ideal_functions, map_test_data, mapLoop, classifyPoint,
      pointLoop, pointStep, pairAccepted, acceptsBound, updateMin, fitModel, fitLine,
      mean, predictAt, dictGet, store_results, save_data, dictSet, stripTrainCol]
    norm_num
    simp [stripTrainCol]
  · simp [map_test_data_to_ideal_functions, map_test_data, mapLoop]

/-- C10 amended: a successful persistence replaces the whole stored
TestDataMapping table, so after two consecutive map runs whose second run
produced at least one record the table holds exactly the second run records;
a second run with no records persists nothing and the earlier table
survives. -/
theorem C10_amended_replace (ideal1 : Table) (sel1 : List (String × Option String))
    (bounds1 : List (String × Option ℚ)) (test1 : List TestPoint)
    (ideal2 : Table) (sel2 : List (String × Option String))
    (bounds2 : List (String × Option ℚ)) (test2 : List TestPoint)
    (db : List (String × List StoredRow)) (out1 out2 : MapRunOutput)
    (h1 : map_test_data_to_ideal_functions ideal1 sel1 bounds1 test1 db = Except.ok out1)
    (h2 : map_test_data_to_ideal_functions ideal2 sel2 bounds2 test2 out1.db =
      Except.ok out2) :
    (out2.records ≠ [] →
      dictGet out2.db "TestDataMapping" = some (out2.records.map stripTrainCol)) ∧
    (out2.records = [] → out2.db = out1.db) := by
  unfold map_test_data_to_ideal_functions at h2
  rcases hm : map_test_data ideal2 sel2 bounds2 test2 with u | recs
  · rw [hm] at h2
    simp at h2
  · rw [hm] at h2
    have h2a : (if recs = [] then
        (Except.ok { records := recs, stored := false, errorReported := true, db := out1.db } : Except Unit MapRunOutput)
      else
        Except.ok { records := recs, stored := true, errorReported := false, db := store_results out1.db (recs.map stripTrainCol) }) =
        Except.ok out2 := h2
    by_cases hrec : recs = []
    · rw [if_pos hrec] at h2a
      have ho := Except.ok.inj h2a
      rw [← ho]
      exact ⟨fun hn => absurd hrec hn, fun _ => rfl⟩
    · rw [if_neg hrec] at h2a
      have ho := Except.ok.inj h2a
      rw [← ho]
      refine ⟨fun _ => ?_, fun h => absurd h hrec⟩
      unfold store_results save_data
      exact dictGet_dictSet_self _ _ _

/-- Witness for C10 amended: two identical consecutive runs, each persisting
the same single record; the table afterwards holds exactly that record. -/
theorem C10_witness :
    (map_test_data_to_ideal_functions { x := [0, 1], cols := [("i1", [0, 1])] }
        [("t1", some "i1")] [("t1", some 1)] [{ x := 0, y := 0 }] [] =
      Except.ok { records := [{ x := 0, y := 0, deltaY := 0, idealFunc := "i1", trainingCol := "t1" }], stored := true, errorReported := false, db := [("TestDataMapping", [{ x := 0, y := 0, deltaY := 0, idealFunc := "i1" }])] } ∧
     map_test_data_to_ideal_functions { x := [0, 1], cols := [("i1", [0, 1])] }
        [("t1", some "i1")] [("t1", some 1)] [{ x := 0, y := 0 }]
        ({ records := [{ x := 0, y := 0, deltaY := 0, idealFunc := "i1", trainingCol := "t1" }], stored := true, errorReported := false, db := [("TestDataMapping", [{ x := 0, y := 0, deltaY := 0, idealFunc := "i1" }])] } : MapRunOutput).db =
      Except.ok { records := [{ x := 0, y := 0, deltaY := 0, idealFunc := "i1", trainingCol := "t1" }], stored := true, errorReported := false, db := [("TestDataMapping", [{ x := 0, y := 0, deltaY := 0, idealFunc := "i1" }])] }) ∧
    ((({ records := [{ x := 0, y := 0, deltaY := 0, idealFunc := "i1", trainingCol := "t1" }], stored := true, errorReported := false, db := [("TestDataMapping", [{ x := 0, y := 0, deltaY := 0, idealFunc := "i1" }])] } : MapRunOutput).records ≠ [] →
      dictGet ({ records := [{ x := 0, y := 0, deltaY := 0, idealFunc := "i1", trainingCol := "t1" }], stored := true, errorReported := false, db := [("TestDataMapping", [{ x := 0, y := 0, deltaY := 0, idealFunc := "i1" }])] } : MapRunOutput).db "TestDataMapping" =
        some (({ records := [{ x := 0, y := 0, deltaY := 0, idealFunc := "i1", trainingCol := "t1" }], stored := true, errorReported := false, db := [("TestDataMapping", [{ x := 0, y := 0, deltaY := 0, idealFunc := "i1" }])] } : MapRunOutput).records.map stripTrainCol)) ∧
     (({ records := [{ x := 0, y := 0, deltaY := 0, idealFunc := "i1", trainingCol := "t1" }], stored := true, errorReported := false, db := [("TestDataMapping", [{ x := 0, y := 0, deltaY := 0, idealFunc := "i1" }])] } : MapRunOutput).records = [] →
      ({ records := [{ x := 0, y := 0, deltaY := 0, idealFunc := "i1", trainingCol := "t1" }], stored := true, errorReported := false, db := [("TestDataMapping", [{ x := 0, y := 0, deltaY := 0, idealFunc := "i1" }])] } : MapRunOutput).db = ({ records := [{ x := 0, y := 0, deltaY := 0, idealFunc := "i1", trainingCol := "t1" }], stored := true, errorReported := false, db := [("TestDataMapping", [{ x := 0, y := 0, deltaY := 0, idealFunc := "i1" }])] } : MapRunOutput).db)) :=
  ⟨⟨by
      simp [map_test_data_to_ideal_functions, map_test_data, mapLoop, classifyPoint,
        pointLoop, pointStep, pairAccepted, acceptsBound, updateMin, fitModel, fitLine,
        mean, predictAt, dictGet, store_results, save_data, dictSet, stripTrainCol]
      norm_num
      simp [stripTrainCol],
    by
      simp [map_test_data_to_ideal_functions, map_test_data, mapLoop, classifyPoint,
        pointLoop, pointStep, pairAccepted, acceptsBound, updateMin, fitModel, fitLine,
        mean, predictAt, dictGet, store_results, save_data, dictSet, stripTrainCol]
      norm_num
      simp [stripTrainCol]⟩,
   C10_amended_replace { x := [0, 1], cols := [("i1", [0, 1])] } [("t1", some "i1")]
     [("t1", some 1)] [{ x := 0, y := 0 }] { x := [0, 1], cols := [("i1", [0, 1])] }
     [("t1", some "i1")] [("t1", some 1)] [{ x := 0, y := 0 }] [] { records := [{ x := 0, y := 0, deltaY := 0, idealFunc := "i1", trainingCol := "t1" }], stored := true, errorReported := false, db := [("TestDataMapping", [{ x := 0, y := 0, deltaY := 0, idealFunc := "i1" }])] } { records := [{ x := 0, y := 0, deltaY := 0, idealFunc := "i1", trainingCol := "t1" }], stored := true, errorReported := false, db := [("TestDataMapping", [{ x := 0, y := 0, deltaY := 0, idealFunc := "i1" }])] }
     (by
      simp [map_test_data_to_ideal_functions, map_test_data, mapLoop, classifyPoint,
        pointLoop, pointStep, pairAccepted, acceptsBound, updateMin, fitModel, fitLine,
        mean, predictAt, dictGet, store_results, save_data, dictSet, stripTrainCol]
      norm_num
      simp [stripTrainCol])
     (by
      simp [map_test_data_to_ideal_functions, map_test_data, mapLoop, classifyPoint,
        pointLoop, pointStep, pairAccepted, acceptsBound, updateMin, fitModel, fitLine,
        mean, predictAt, dictGet, store_results, save_data, dictSet, stripTrainCol]
      norm_num
      simp [stripTrainCol])⟩

end IdealFunctions
